import Mathlib

/-!
Verification of the data-access layer of the poster-nextjs repository.

The repository persists all application data in a Redis-like key-value store
(hashes, sets, sorted sets, lists) accessed through the Upstash client.  Each
repository class is embedded here as a pure Lean module: the relevant slice of
the key space becomes an explicit state record, every repository method becomes
a function from the old state to the new state (returning `Except` where the
TypeScript method can throw), and pipelined batches are applied command by
command in the order the source queues them.  Randomly generated UUIDs and
clock reads are determinized by passing them as explicit arguments.

Serialization is modelled as follows.  `JVal` is the type of JavaScript/JSON
values that the Upstash client can hand back to the repositories.  A stored
list element (conversation messages) is either the JSON serialization of a
`JVal` (constructor `MsgEntry.json`) or a corrupt string that `JSON.parse`
rejects (constructor `MsgEntry.corrupt`); this embeds the external
`JSON.parse` boundary as data, which is exactly the case split the source code
performs on it.
-/

set_option autoImplicit false

/-! ## Association-list primitives

Redis hashes, string keys and per-key structures are modelled as association
lists with unique keys.  `aget`, `aset` and `adel` are the embeddings of
HGET/GET, HSET/SET and HDEL/DEL on one field. -/

/-- Lookup of a key in an association list (HGET / GET). -/
def aget {α : Type} : List (String × α) → String → Option α
  | [], _ => none
  | (k2, v) :: rest, k => if k2 = k then some v else aget rest k

/-- Insert-or-replace of a key in an association list (HSET / SET). -/
def aset {α : Type} : List (String × α) → String → α → List (String × α)
  | [], k, v => [(k, v)]
  | (k2, v2) :: rest, k, v =>
    if k2 = k then (k2, v) :: rest else (k2, v2) :: aset rest k v

/-- Removal of a key from an association list (HDEL / DEL). -/
def adel {α : Type} : List (String × α) → String → List (String × α)
  | [], _ => []
  | (k2, v2) :: rest, k => if k2 = k then adel rest k else (k2, v2) :: adel rest k

/-- Keys of an association list (Object.keys / HKEYS). -/
def akeys {α : Type} (l : List (String × α)) : List String := l.map (·.1)

/-! ## JavaScript value model -/

/-- JSON-compatible JavaScript values as returned by the Upstash client. -/
inductive JVal : Type where
  | str (s : String)
  | num (n : Int)
  | bool (b : Bool)
  | null
  | arr (elems : List JVal)
  | obj (fields : List (String × JVal))

/-- Result of the JavaScript `typeof` operator on a `JVal` (note that
`typeof null` is "object" in JavaScript). -/
def JVal.typeofStr : JVal → String
  | .str _ => "string"
  | .num _ => "number"
  | .bool _ => "boolean"
  | .null => "object"
  | .arr _ => "object"
  | .obj _ => "object"

/-- JavaScript truthiness of a value. -/
def JVal.truthy : JVal → Bool
  | .str s => s ≠ ""
  | .num n => n ≠ 0
  | .bool b => b
  | .null => false
  | .arr _ => true
  | .obj _ => true

/-- Property access `v.f` on a JavaScript value: `none` models `undefined`. -/
def JVal.jget : JVal → String → Option JVal
  | .obj fields, f => aget fields f
  | _, _ => none

/-- Truthiness of a possibly-undefined JavaScript value (`undefined` is falsy). -/
def jtruthy : Option JVal → Bool
  | none => false
  | some v => v.truthy

/-- Test `Array.isArray(v) && v.every(item => typeof item === "string")`,
the validation applied to content pieces by the post repository. -/
def JVal.isStringArray : JVal → Bool
  | .arr elems => elems.all (fun e => e.typeofStr = "string")
  | _ => false

/-- Extraction of the `String` payloads of an array of JSON strings. -/
def JVal.asStringList : List JVal → Option (List String)
  | [] => some []
  | .str s :: rest => (JVal.asStringList rest).map (s :: ·)
  | _ => none

mutual

/-- Compact JSON serialization of a value (`JSON.stringify`). -/
def JVal.encode : JVal → String
  | .str s => "\"" ++ s ++ "\""
  | .num n => toString n
  | .bool b => if b then "true" else "false"
  | .null => "null"
  | .arr elems => "[" ++ JVal.encodeList elems ++ "]"
  | .obj fields => "\x7b" ++ JVal.encodeFields fields ++ "\x7d"

/-- Comma-separated serialization of array elements. -/
def JVal.encodeList : List JVal → String
  | [] => ""
  | [e] => JVal.encode e
  | e :: rest => JVal.encode e ++ "," ++ JVal.encodeList rest

/-- Comma-separated serialization of object fields. -/
def JVal.encodeFields : List (String × JVal) → String
  | [] => ""
  | [(k, v)] => "\"" ++ k ++ "\":" ++ JVal.encode v
  | (k, v) :: rest => "\"" ++ k ++ "\":" ++ JVal.encode v ++ "," ++ JVal.encodeFields rest

end

/-! ## Redis list range semantics -/

/-- Redis LRANGE over a Lean list: zero-based inclusive range, negative
indices count from the end, out-of-range indices are clamped. -/
def lrange {α : Type} (l : List α) (start stop : Int) : List α :=
  let n : Int := l.length
  let s : Nat := (if start < 0 then start + n else start).toNat
  let e : Int := if stop < 0 then stop + n else min stop (n - 1)
  if e < 0 then []
  else (l.take (e.toNat + 1)).drop s

/-! ## Sorted-set range

Redis ZRANGE returns members ordered by ascending score, ties broken
lexicographically by member.  An insertion sort realizes that order. -/

/-- Ordering used by ZRANGE: by score, then lexicographically by member. -/
def zleb (a b : String × Int) : Bool :=
  a.2 < b.2 || (a.2 = b.2 && decide (a.1 ≤ b.1))

/-- Insertion into a ZRANGE-ordered list. -/
def zinsert (x : String × Int) : List (String × Int) → List (String × Int)
  | [] => [x]
  | y :: rest => if zleb x y then x :: y :: rest else y :: zinsert x rest

/-- Full ascending range of a sorted set (ZRANGE 0 -1 WITHSCORES). -/
def zrangeAsc : List (String × Int) → List (String × Int)
  | [] => []
  | x :: rest => zinsert x (zrangeAsc rest)

/-! ## Shared repository helpers -/

/-- Mode discriminator of the checked upsert operations (`"create" | "update"`). -/
inductive UpsertMode : Type where
  | create
  | update
deriving DecidableEq

/-- JavaScript truthiness of a nullable string (`null` and `""` are falsy). -/
def struthy : Option String → Bool
  | none => false
  | some s => s ≠ ""

/-- JavaScript truthiness normalization of an optional string option field:
an absent option and an empty string behave identically in an `if (!x)` test. -/
def snorm : Option String → Option String
  | none => none
  | some s => if s = "" then none else some s

/-- Lower-casing of a string (JavaScript `toLowerCase()`), character by
character. -/
def lowerStr (s : String) : String := String.mk (s.data.map Char.toLower)

/-- HSET of a list of fields into a keyed hash, creating the hash if the key
is absent (Redis HSET merges fields into the existing hash). -/
def hsetAt {α : Type} (hs : List (String × List (String × α))) (key : String)
    (fields : List (String × α)) : List (String × List (String × α)) :=
  aset hs key (fields.foldl (fun h kv => aset h kv.1 kv.2) ((aget hs key).getD []))

/-- HDEL of one field of a keyed hash; a missing key is left untouched. -/
def hdelAt {α : Type} (hs : List (String × List (String × α))) (key field : String) :
    List (String × List (String × α)) :=
  match aget hs key with
  | none => hs
  | some h => aset hs key (adel h field)

/-- HGET of one field of a keyed hash (`null` when key or field is missing). -/
def hgetAt {α : Type} (hs : List (String × List (String × α))) (key field : String) :
    Option α :=
  match aget hs key with
  | none => none
  | some h => aget h field

/-- ZADD of one member into a keyed sorted set. -/
def zaddAt (zs : List (String × List (String × Int))) (key member : String) (score : Int) :
    List (String × List (String × Int)) :=
  aset zs key (aset ((aget zs key).getD []) member score)

/-- ZREM of one member of a keyed sorted set; a missing key is left untouched. -/
def zremAt (zs : List (String × List (String × Int))) (key member : String) :
    List (String × List (String × Int)) :=
  match aget zs key with
  | none => zs
  | some z => aset zs key (adel z member)

/-- Scalar hash value of the customer/project main hashes: either a plain
string field or the JSON serialization of a structured value (which the
defensive dual-path readers in the source accept in either form). -/
inductive CVal : Type where
  | plain (s : String)
  | enc (v : JVal)

/-- String content of a stored scalar, as the client returns it. -/
def CVal.asString : CVal → String
  | .plain s => s
  | .enc v => JVal.encode v

/-! ## Key naming scheme

Embedding of `src/server/data/repositories/redisKeys.ts`.  The class holds a
namespace string fixed at construction; it is passed explicitly here. -/

namespace RedisKeys

/-- Separator-joining of a string list (`Array.prototype.join(':')`). -/
def joinSep : List String → String
  | [] => ""
  | [p] => p
  | p :: rest => p ++ ":" ++ joinSep rest

/-- Embedding of the private helper
`join(...parts) = [this.namespace, ...parts].filter(Boolean).join(':')`
(`filter(Boolean)` drops empty strings; the separator is `":"`). -/
def join (ns : String) (parts : List String) : String :=
  joinSep ((ns :: parts).filter (fun s => s ≠ ""))

/-- Key of a customer main hash: `join('cust', id)`. -/
def customer (ns id : String) : String := join ns ["cust", id]

/-- Key of a project main hash: `join('proj', id)`. -/
def project (ns id : String) : String := join ns ["proj", id]

/-- Key of a conversation main hash: `join('conv', id)`. -/
def conversation (ns id : String) : String := join ns ["conv", id]

/-- Key of a post main hash: `join('post', id)`. -/
def post (ns id : String) : String := join ns ["post", id]

/-- Key of a user main hash: `join('user', id)`. -/
def user (ns id : String) : String := join ns ["user", id]

/-- Key of a subscription main hash: `join('sub', id)`. -/
def subscription (ns id : String) : String := join ns ["sub", id]

/-- Key of a customer permissions hash: `join('cust', id, 'permissions')`. -/
def customerPermissions (ns customerId : String) : String :=
  join ns ["cust", customerId, "permissions"]

/-- Key of a customer project set: `join('cust', id, 'projects')`. -/
def customerProjects (ns customerId : String) : String :=
  join ns ["cust", customerId, "projects"]

/-- Key of a user customer sorted set: `join('user', id, 'customers')`. -/
def userCustomers (ns userId : String) : String :=
  join ns ["user", userId, "customers"]

end RedisKeys

/-! ## User repository

Embedding of `src/server/data/repositories/redisUserRepository.ts`.  The
state carries the `user:<id>` hashes and the `user_email:<lowercased email>`
secondary index.  Hash field values are `Option String`, where `none` models a
stored JSON `null` (which reads back as a non-string and is therefore
observationally absent for the validating readers). -/

namespace RedisUserRepository

/-- Creation payload (`UserData`). -/
structure UserData : Type where
  email : String
  name : String
  subscriptionId : Option String

/-- Returned user record. -/
structure User : Type where
  id : String
  email : String
  name : String
  subscriptionId : Option String
deriving DecidableEq

/-- Partial update payload (`Partial<UserData>`): each field can be absent.
For `subscriptionId`, `none` models an absent field and `some none` models an
explicit `null`. -/
structure UserPatch : Type where
  email : Option String
  name : Option String
  subscriptionId : Option (Option String)

/-- State: primary user hashes and the email secondary index, keyed by the
lowercased email. -/
structure Store : Type where
  users : List (String × List (String × Option String))
  emailIndex : List (String × String)
deriving DecidableEq

/-- Embedding of `upsert(data, mode?)`.  `fresh` determinizes `uuidv4()`. -/
def upsert (fresh : String) (data : UserData) (mode : Option UpsertMode) (st : Store) :
    Except String (User × Store) :=
  let existingUserId := aget st.emailIndex (lowerStr data.email)
  if mode = some UpsertMode.create ∧ struthy existingUserId then
    Except.error ("User with email " ++ data.email ++ " already exists.")
  else if mode = some UpsertMode.update ∧ ¬ struthy existingUserId then
    Except.error ("User with email " ++ data.email ++ " does not exist.")
  else
    let userId := existingUserId.getD fresh
    let userDataForHash : List (String × Option String) :=
      [("name", some data.name), ("email", some data.email),
       ("subscriptionId", data.subscriptionId)]
    let st1 : Store := { st with users := hsetAt st.users userId userDataForHash }
    let st2 : Store :=
      { st1 with emailIndex := aset st1.emailIndex (lowerStr data.email) userId }
    Except.ok
      ({ id := userId, name := data.name, email := data.email,
         subscriptionId := data.subscriptionId }, st2)

/-- Embedding of `create(data) = upsert(data, 'create')`. -/
def create (fresh : String) (data : UserData) (st : Store) : Except String (User × Store) :=
  upsert fresh data (some UpsertMode.create) st

/-- Embedding of `getById`: reads the hash and validates that `email` and
`name` are strings, returning `null` otherwise. -/
def getById (st : Store) (userId : String) : Option User :=
  match aget st.users userId with
  | none => none
  | some h =>
    match aget h "email", aget h "name" with
    | some (some email), some (some name) =>
      some { id := userId, email := email, name := name,
             subscriptionId :=
               match aget h "subscriptionId" with
               | some (some s) => some s
               | _ => none }
    | _, _ => none

/-- Embedding of `findByEmail`: index lookup (lowercased) then primary fetch. -/
def findByEmail (st : Store) (email : String) : Option User :=
  let userId := aget st.emailIndex (lowerStr email)
  if ¬ struthy userId then none
  else getById st (userId.getD "")

/-- Pipeline commands queued by `update`. -/
inductive Cmd : Type where
  | hsetUser (uid : String) (fields : List (String × Option String))
  | delIndex (emailLower : String)
  | setIndex (emailLower : String) (uid : String)
  | hdelSubscription (uid : String)

/-- Application of one queued pipeline command to the store. -/
def applyCmd (st : Store) : Cmd → Store
  | .hsetUser uid fields => { st with users := hsetAt st.users uid fields }
  | .delIndex e => { st with emailIndex := adel st.emailIndex e }
  | .setIndex e uid => { st with emailIndex := aset st.emailIndex e uid }
  | .hdelSubscription uid => { st with users := hdelAt st.users uid "subscriptionId" }

/-- Embedding of `update(userId, data)`.  Commands are queued in source order
(`hset`, then the email index move, then the `subscriptionId` removal) and are
applied only at `pipe.exec()`; the conflict check happens after queuing the
`hset` but before execution, so a thrown conflict leaves the store untouched. -/
def update (userId : String) (patch : UserPatch) (st : Store) : Except String Store :=
  match getById st userId with
  | none => Except.error ("User with ID " ++ userId ++ " not found for update.")
  | some currentUser =>
    let updateData : List (String × Option String) :=
      (match patch.name with | some n => [("name", some n)] | none => [])
      ++ (match patch.email with | some e => [("email", some e)] | none => [])
      ++ (match patch.subscriptionId with
          | some (some s) => [("subscriptionId", some s)]
          | _ => [])
    let pipe0 : List Cmd :=
      if updateData = [] then [] else [Cmd.hsetUser userId updateData]
    let emailBranch : Except String (List Cmd) :=
      match snorm patch.email with
      | some e =>
        if lowerStr e ≠ lowerStr currentUser.email then
          let existingUserCheck := aget st.emailIndex (lowerStr e)
          if struthy existingUserCheck ∧ existingUserCheck ≠ some userId then
            Except.error ("Email " ++ e ++ " is already in use by another user.")
          else
            Except.ok [Cmd.delIndex (lowerStr currentUser.email), Cmd.setIndex (lowerStr e) userId]
        else Except.ok []
      | none => Except.ok []
    match emailBranch with
    | .error msg => Except.error msg
    | .ok emailCmds =>
      let subCmds : List Cmd :=
        match patch.subscriptionId with
        | some none => [Cmd.hdelSubscription userId]
        | _ => []
      Except.ok ((pipe0 ++ emailCmds ++ subCmds).foldl applyCmd st)

end RedisUserRepository

/-! ## Subscription repository

Embedding of the `RedisSubscriptionRepository` source file (`sub:<id>` hashes
plus the `sub_user:<userId>` index enforcing one subscription per user). -/

namespace RedisSubscriptionRepository

/-- Creation payload (`SubscriptionData`). -/
structure SubscriptionData : Type where
  userId : String
  planType : String
  status : String

/-- Returned subscription record. -/
structure Subscription : Type where
  id : String
  userId : String
  planType : String
  status : String
deriving DecidableEq

/-- State: primary subscription hashes and the user index. -/
structure Store : Type where
  subs : List (String × List (String × String))
  userIndex : List (String × String)
deriving DecidableEq

/-- Committed part of `create`: the pipelined `hset` of the subscription hash
and `set` of the `userId → subscriptionId` index entry. -/
def createCommit (fresh : String) (data : SubscriptionData) (st : Store) :
    Subscription × Store :=
  let subscriptionDataForHash : List (String × String) :=
    [("userId", data.userId), ("planType", data.planType), ("status", data.status)]
  let st1 : Store := { st with subs := hsetAt st.subs fresh subscriptionDataForHash }
  let st2 : Store := { st1 with userIndex := aset st1.userIndex data.userId fresh }
  ({ id := fresh, userId := data.userId, planType := data.planType,
     status := data.status }, st2)

/-- Embedding of `create(data)`: the user index is consulted first and a
truthy hit raises the conflict error naming the existing subscription id;
otherwise the hash and the index entry are written in one pipeline.  `fresh`
determinizes `uuidv4()`. -/
def create (fresh : String) (data : SubscriptionData) (st : Store) :
    Except String (Subscription × Store) :=
  match aget st.userIndex data.userId with
  | some existingSubId =>
    if existingSubId = "" then Except.ok (createCommit fresh data st)
    else
      Except.error ("User " ++ data.userId ++ " already has an active subscription (ID: "
        ++ existingSubId ++ ").")
  | none => Except.ok (createCommit fresh data st)

/-- Embedding of `findByUserId`: index lookup then primary fetch. -/
def findByUserId (st : Store) (userId : String) : Option Subscription :=
  let subscriptionId := aget st.userIndex userId
  if ¬ struthy subscriptionId then none
  else
    let sid := subscriptionId.getD ""
    match aget st.subs sid with
    | none => none
    | some h =>
      match aget h "userId", aget h "planType", aget h "status" with
      | some u, some p, some s =>
        some { id := sid, userId := u, planType := p, status := s }
      | _, _, _ => none

end RedisSubscriptionRepository

/-! ## Customer repository (primary, sorted-set indexed)

Embedding of `src/server/data/repositories/redisCustomerRepository.ts`: main
hashes `cust:<id>`, permissions hashes `cust:<id>:permissions`, project sets
`cust:<id>:projects`, and per-user sorted sets `user:<uid>:customers` scored
by role priority (owner=4, admin=3, editor=2, viewer=1). -/

namespace RedisCustomerRepository

/-- Role enumeration (`UserRole`); permission hashes store role names as
strings, so corrupted values remain representable on the read side. -/
inductive UserRole : Type where
  | owner
  | admin
  | editor
  | viewer
deriving DecidableEq

/-- Stored string form of a role. -/
def UserRole.toStr : UserRole → String
  | .owner => "owner"
  | .admin => "admin"
  | .editor => "editor"
  | .viewer => "viewer"

/-- Embedding of the `ROLE_PRIORITY` record. -/
def UserRole.priority : UserRole → Int
  | .owner => 4
  | .admin => 3
  | .editor => 2
  | .viewer => 1

/-- Validation used by `getPermissions`/`getPermissionForUser`: the stored
role string is one of the four members of the closed enum. -/
def isValidRole (r : String) : Bool :=
  r = "owner" || r = "admin" || r = "editor" || r = "viewer"

/-- Reverse lookup of `ROLE_PRIORITY` by score, in object-entry order, as
performed by `listUserCustomers` via `Object.entries(...).find(...)`. -/
def roleOfScore (score : Int) : Option String :=
  if score = 4 then some "owner"
  else if score = 3 then some "admin"
  else if score = 2 then some "editor"
  else if score = 1 then some "viewer"
  else none

/-- Creation payload (`CustomerData`). -/
structure CustomerData : Type where
  name : String
  ownerUserId : String
  industry : Option String
  aiContext : Option JVal

/-- State of the keys this repository touches. -/
structure Store : Type where
  main : List (String × List (String × CVal))
  perms : List (String × List (String × String))
  projects : List (String × List String)
  userCustomers : List (String × List (String × Int))

/-- Record returned by `getById` (the primary file performs no field
validation, so every attribute read from the hash may be `undefined`). -/
structure CustomerRec : Type where
  id : String
  name : Option String
  ownerUserId : Option String
  industry : Option String
  aiContext : Option JVal
  permissions : List (String × String)

/-- Embedding of `getPermissions`: reads the permissions hash and keeps only
entries whose role string is a member of the closed enum. -/
def getPermissions (st : Store) (customerId : String) : List (String × String) :=
  ((aget st.perms customerId).getD []).filter (fun kv => isValidRole kv.2)

/-- Value written for `aiContext_json` on create/update:
`data.aiContext ? JSON.stringify(data.aiContext) : ''`. -/
def aiContextField (aiContext : Option JVal) : CVal :=
  match aiContext with
  | some v => if v.truthy then CVal.enc v else CVal.plain ""
  | none => CVal.plain ""

/-- Embedding of `create(data)`: one pipeline writes the main hash, the
owner permission entry, and the owner sorted-set membership with score
`ROLE_PRIORITY.owner`.  `fresh` determinizes `uuidv4()`. -/
def create (fresh : String) (data : CustomerData) (st : Store) : Store :=
  let mainFields : List (String × CVal) :=
    [("name", CVal.plain data.name), ("ownerUserId", CVal.plain data.ownerUserId),
     ("industry", CVal.plain (data.industry.getD "")),
     ("aiContext_json", aiContextField data.aiContext)]
  let st1 : Store := { st with main := hsetAt st.main fresh mainFields }
  let st2 : Store := { st1 with perms := hsetAt st1.perms fresh [(data.ownerUserId, "owner")] }
  { st2 with userCustomers := zaddAt st2.userCustomers data.ownerUserId fresh UserRole.owner.priority }

/-- Embedding of `getById` (no field validation in the primary file; the
permissions hash is fetched and attached). -/
def getById (st : Store) (customerId : String) : Option CustomerRec :=
  match aget st.main customerId with
  | none => none
  | some h =>
    let aiContext : Option JVal :=
      match aget h "aiContext_json" with
      | some (CVal.enc v) => some v
      | _ => none
    let industry : Option String :=
      match aget h "industry" with
      | some c => if c.asString = "" then none else some c.asString
      | none => none
    some { id := customerId,
           name := (aget h "name").map CVal.asString,
           ownerUserId := (aget h "ownerUserId").map CVal.asString,
           industry := industry,
           aiContext := aiContext,
           permissions := getPermissions st customerId }

/-- Embedding of `setPermission`: one pipeline sets the permission hash entry
and adds the customer to the user sorted set with the role priority score. -/
def setPermission (st : Store) (customerId userId : String) (role : UserRole) : Store :=
  let st1 : Store := { st with perms := hsetAt st.perms customerId [(userId, role.toStr)] }
  { st1 with userCustomers := zaddAt st1.userCustomers userId customerId role.priority }

/-- Embedding of `removePermission`: one pipeline deletes the permission hash
entry and removes the customer from the user sorted set.  The primary file
performs no owner check. -/
def removePermission (st : Store) (customerId userId : String) : Store :=
  let st1 : Store := { st with perms := hdelAt st.perms customerId userId }
  { st1 with userCustomers := zremAt st1.userCustomers userId customerId }

/-- Embedding of `setOwner`: reads the current `ownerUserId` field, then one
pipeline (in source order) sets the main-hash owner field, sets the new owner
permission, deletes the current owner permission when the read was truthy,
adds the customer to the new owner sorted set, and removes it from the
current owner sorted set when the read was truthy. -/
def setOwner (st : Store) (customerId newOwnerUserId : String) : Store :=
  let currentOwnerUserId : Option String :=
    snorm ((hgetAt st.main customerId "ownerUserId").map CVal.asString)
  let st1 : Store :=
    { st with main := hsetAt st.main customerId [("ownerUserId", CVal.plain newOwnerUserId)] }
  let st2 : Store := { st1 with perms := hsetAt st1.perms customerId [(newOwnerUserId, "owner")] }
  let st3 : Store :=
    match currentOwnerUserId with
    | some a => { st2 with perms := hdelAt st2.perms customerId a }
    | none => st2
  let zs4 := zaddAt st3.userCustomers newOwnerUserId customerId UserRole.owner.priority
  let st4 : Store := { st3 with userCustomers := zs4 }
  match currentOwnerUserId with
  | some a => { st4 with userCustomers := zremAt st4.userCustomers a customerId }
  | none => st4

/-- Embedding of `delete`: a missing customer returns immediately; otherwise
one pipeline deletes the main hash, the permissions hash, the projects set,
and removes the customer from the sorted set of every user appearing in the
validated permissions map. -/
def delete (st : Store) (customerId : String) : Store :=
  match getById st customerId with
  | none => st
  | some _ =>
    let userIds : List String := akeys (getPermissions st customerId)
    let st1 : Store := { st with main := adel st.main customerId }
    let st2 : Store := { st1 with perms := adel st1.perms customerId }
    let st3 : Store := { st2 with projects := adel st2.projects customerId }
    let zs4 := userIds.foldl (fun z uid => zremAt z uid customerId) st3.userCustomers
    { st3 with userCustomers := zs4 }

/-- Embedding of `listUserCustomers`: ZRANGE of the user sorted set with
scores, keeping the pairs whose score maps back to a role name. -/
def listUserCustomers (st : Store) (userId : String) : List (String × String) :=
  let customerScores := zrangeAsc ((aget st.userCustomers userId).getD [])
  customerScores.filterMap (fun p => (roleOfScore p.2).map (fun r => (p.1, r)))

end RedisCustomerRepository

/-! ## Customer repository (variant, part_004)

Embedding of the unnamed variant of `RedisCustomerRepository`: same main and
permissions hashes, no sorted-set index, and the owner-guarded
`removePermission`/`setOwner` together with `getOwnerUserId`,
`getPermissionForUser` and the mode-checked `upsert`. -/

namespace RedisCustomerRepositoryVariant

/-- State of the keys the variant repository touches. -/
structure Store : Type where
  main : List (String × List (String × CVal))
  perms : List (String × List (String × String))
  projects : List (String × List String)

/-- Embedding of `getOwnerUserId`: HGET of the `ownerUserId` field. -/
def getOwnerUserId (st : Store) (customerId : String) : Option String :=
  (hgetAt st.main customerId "ownerUserId").map CVal.asString

/-- Embedding of `getPermissionForUser`: HGET of the user entry in the
permissions hash, validated against the closed role enum. -/
def getPermissionForUser (st : Store) (customerId userId : String) : Option String :=
  match hgetAt st.perms customerId userId with
  | some role => if RedisCustomerRepository.isValidRole role then some role else none
  | none => none

/-- Embedding of the variant `setOwner`: reads the current owner, then one
pipeline sets the main-hash owner field, sets the new owner permission, and
deletes the current owner permission only when the current owner is truthy
and different from the new owner. -/
def setOwner (st : Store) (customerId newOwnerUserId : String) : Store :=
  let currentOwnerUserId : Option String := snorm (getOwnerUserId st customerId)
  let st1 : Store :=
    { st with main := hsetAt st.main customerId [("ownerUserId", CVal.plain newOwnerUserId)] }
  let st2 : Store := { st1 with perms := hsetAt st1.perms customerId [(newOwnerUserId, "owner")] }
  match currentOwnerUserId with
  | some a =>
    if a ≠ newOwnerUserId then { st2 with perms := hdelAt st2.perms customerId a } else st2
  | none => st2

/-- Embedding of the variant `removePermission`: when the target user is the
stored owner the method returns without touching the store; otherwise the
permission hash entry is deleted. -/
def removePermission (st : Store) (customerId userId : String) : Store :=
  let owner := getOwnerUserId st customerId
  if owner = some userId then st
  else { st with perms := hdelAt st.perms customerId userId }

/-- Fields written by the variant `upsert` through `cleanHashData` (null and
undefined values are dropped; structured values are stringified). -/
def upsertMainFields (data : RedisCustomerRepository.CustomerData) : List (String × CVal) :=
  [("name", CVal.plain data.name), ("ownerUserId", CVal.plain data.ownerUserId)]
  ++ (match data.industry with
      | some s => [("industry", CVal.plain s)]
      | none => [])
  ++ (match data.aiContext with
      | some v => [("aiContext_json", CVal.enc v)]
      | none => [])

/-- Embedding of the variant `upsert(data, options)`: the mode is mandatory;
update mode requires a provided id whose main key exists; create mode with a
provided id requires the main key to be absent; then the main hash is written
and, on create, the owner permission entry. -/
def upsert (fresh : String) (data : RedisCustomerRepository.CustomerData)
    (mode : Option UpsertMode) (providedCustomerId : Option String) (st : Store) :
    Except String (String × Store) :=
  match mode with
  | none => Except.error "Operation mode (create or update) must be specified in options."
  | some m =>
    let idCheck : Except String String :=
      match m with
      | UpsertMode.update =>
        match snorm providedCustomerId with
        | none => Except.error "Customer ID must be provided in options for update mode."
        | some pid =>
          if (aget st.main pid).isSome then Except.ok pid
          else Except.error ("Customer with ID " ++ pid ++ " not found for update.")
      | UpsertMode.create =>
        match snorm providedCustomerId with
        | some pid =>
          if (aget st.main pid).isSome then
            Except.error ("Customer with ID " ++ pid ++ " already exists. Cannot create.")
          else Except.ok pid
        | none => Except.ok fresh
    match idCheck with
    | .error msg => Except.error msg
    | .ok effectiveCustomerId =>
      let st1 : Store :=
        { st with main := hsetAt st.main effectiveCustomerId (upsertMainFields data) }
      let st2 : Store :=
        match m with
        | UpsertMode.create =>
          { st1 with perms := hsetAt st1.perms effectiveCustomerId [(data.ownerUserId, "owner")] }
        | UpsertMode.update => st1
      Except.ok (effectiveCustomerId, st2)

end RedisCustomerRepositoryVariant

/-! ## Conversation repository (primary)

Embedding of `src/server/data/repositories/redisConversationRepository.ts`:
main hashes `conv:<id>`, message lists `conv:<id>:messages`, post sets
`conv:<id>:posts`.  A stored message-list element either is the JSON
serialization of a value (`MsgEntry.json`) or is corrupt, i.e. rejected by
`JSON.parse` (`MsgEntry.corrupt`). -/

/-- One element of a conversation message list. -/
inductive MsgEntry : Type where
  | json (v : JVal)
  | corrupt (s : String)

namespace RedisConversationRepository

/-- Creation payload (`ConversationData`). -/
structure ConversationData : Type where
  projectId : String
  title : String

/-- State of the keys this repository touches. -/
structure Store : Type where
  main : List (String × List (String × String))
  msgs : List (String × List MsgEntry)
  posts : List (String × List String)

/-- Embedding of the primary `getMessages(start, end)`:
`lrange` then `messages.map(msg => JSON.parse(msg))`.  A corrupt element makes
`JSON.parse` throw, which aborts the whole read; the raised error carries the
offending raw string. -/
def getMessages (st : Store) (conversationId : String) (start stop : Int) :
    Except String (List JVal) :=
  let messages := lrange ((aget st.msgs conversationId).getD []) start stop
  messages.mapM (fun msg =>
    match msg with
    | MsgEntry.json v => Except.ok v
    | MsgEntry.corrupt s => Except.error s)

/-- Embedding of the primary `getRecentMessages(count)`:
`lrange(key, -count, -1)` followed by the same unguarded parse.  There is no
guard for `count <= 0`. -/
def getRecentMessages (st : Store) (conversationId : String) (count : Int) :
    Except String (List JVal) :=
  let messages := lrange ((aget st.msgs conversationId).getD []) (-count) (-1)
  messages.mapM (fun msg =>
    match msg with
    | MsgEntry.json v => Except.ok v
    | MsgEntry.corrupt s => Except.error s)

/-- Embedding of `upsert(data, options)`: mandatory mode, update requires an
existing main key, create with a provided id requires an absent main key,
then the main hash fields are written through `cleanHashData`. -/
def upsert (fresh : String) (data : ConversationData) (mode : Option UpsertMode)
    (providedConversationId : Option String) (st : Store) :
    Except String (String × Store) :=
  match mode with
  | none => Except.error "Operation mode (create or update) must be specified in options."
  | some m =>
    let idCheck : Except String String :=
      match m with
      | UpsertMode.update =>
        match snorm providedConversationId with
        | none => Except.error "Conversation ID must be provided in options for update mode."
        | some pid =>
          if (aget st.main pid).isSome then Except.ok pid
          else Except.error ("Conversation with ID " ++ pid ++ " not found for update.")
      | UpsertMode.create =>
        match snorm providedConversationId with
        | some pid =>
          if (aget st.main pid).isSome then
            Except.error ("Conversation with ID " ++ pid ++ " already exists. Cannot create.")
          else Except.ok pid
        | none => Except.ok fresh
    match idCheck with
    | .error msg => Except.error msg
    | .ok effectiveConversationId =>
      let fields : List (String × String) :=
        [("projectId", data.projectId), ("title", data.title)]
      Except.ok (effectiveConversationId,
        { st with main := hsetAt st.main effectiveConversationId fields })

end RedisConversationRepository

/-! ## Conversation repository (variant, part_014)

Embedding of the unnamed variant of `RedisConversationRepository`, whose
message readers skip malformed entries and whose `getRecentMessages` guards
non-positive counts. -/

namespace RedisConversationRepositoryVariant

mutual

/-- JavaScript `String(x)` conversion (array elements joined by commas,
plain objects printed as `[object Object]`). -/
def jsString : JVal → String
  | .str s => s
  | .num n => toString n
  | .bool b => if b then "true" else "false"
  | .null => "null"
  | .arr elems => jsStringList elems
  | .obj _ => "[object Object]"

/-- Comma-joined conversion of array elements. -/
def jsStringList : List JVal → String
  | [] => ""
  | [e] => jsString e
  | e :: rest => jsString e ++ "," ++ jsStringList rest

end

/-- Validation applied to a parsed message:
`parsed && typeof parsed === "object" && parsed.role && parsed.content`. -/
def isValidMessageShape (v : JVal) : Bool :=
  v.truthy && v.typeofStr = "object" && jtruthy (v.jget "role") && jtruthy (v.jget "content")

/-- Normalization applied to a kept message:
`if (parsed.timestamp !== undefined) parsed.timestamp = String(parsed.timestamp)`. -/
def normalizeTimestamp (v : JVal) : JVal :=
  match v with
  | .obj fields =>
    match aget fields "timestamp" with
    | some t => JVal.obj (aset fields "timestamp" (JVal.str (jsString t)))
    | none => JVal.obj fields
  | other => other

/-- Embedding of the variant `getMessages(start, end)`: each raw element is
parsed inside a try/catch; parse failures and shape-invalid values are
logged and skipped, valid ones are timestamp-normalized and kept in order. -/
def getMessages (st : RedisConversationRepository.Store) (conversationId : String)
    (start stop : Int) : List JVal :=
  let messageItems := lrange ((aget st.msgs conversationId).getD []) start stop
  messageItems.filterMap (fun item =>
    match item with
    | MsgEntry.json v =>
      if isValidMessageShape v then some (normalizeTimestamp v) else none
    | MsgEntry.corrupt _ => none)

/-- Embedding of the variant `getRecentMessages(count)`:
`if (count <= 0) return []`, otherwise `getMessages(-count, -1)`. -/
def getRecentMessages (st : RedisConversationRepository.Store) (conversationId : String)
    (count : Int) : List JVal :=
  if count ≤ 0 then []
  else getMessages st conversationId (-count) (-1)

end RedisConversationRepositoryVariant

/-! ## Post repository

Embedding of `src/server/data/repositories/redisPostRepository.ts`.  Hash
field values are modelled as the JavaScript values the client returns:
`contentPieces_json` is written as the JSON serialization of an array and
read back in auto-parsed form, which is the `Array.isArray` branch of the
defensive reader. -/

namespace RedisPostRepository

/-- Creation payload (`PostData` as consumed by this source file).  For
`imageLink`, `none` models an absent field and `some none` an explicit
`null`.  `contentPieces` is kept as a raw JavaScript value because the
repository validates its shape at runtime. -/
structure PostData : Type where
  conversationId : String
  targetPlatform : String
  postType : String
  imageLink : Option (Option String)
  contentPieces : JVal

/-- Returned post record. -/
structure Post : Type where
  id : String
  conversationId : String
  targetPlatform : String
  postType : String
  imageLink : Option String
  contentPieces : List String

/-- State of the keys this repository touches. -/
structure PostStore : Type where
  main : List (String × List (String × JVal))
  prompts : List (String × List String)

/-- Embedding of `getById`: validates that the three required ids/strings are
strings and that `contentPieces_json` is present as a string or object, then
extracts the content pieces if they form an array of strings (empty list and
a logged error otherwise). -/
def getById (st : PostStore) (postId : String) : Option Post :=
  match aget st.main postId with
  | none => none
  | some h =>
    match aget h "conversationId", aget h "targetPlatform",
          aget h "postType", aget h "contentPieces_json" with
    | some (JVal.str conversationId), some (JVal.str targetPlatform),
      some (JVal.str postType), some cpj =>
      if cpj.typeofStr = "string" ∨ cpj.typeofStr = "object" then
        let contentPieces : List String :=
          match cpj with
          | JVal.arr elems => (JVal.asStringList elems).getD []
          | _ => []
        let imageLink : Option String :=
          match aget h "imageLink" with
          | some (JVal.str s) => some s
          | _ => none
        some { id := postId, conversationId := conversationId,
               targetPlatform := targetPlatform, postType := postType,
               imageLink := imageLink, contentPieces := contentPieces }
      else none
    | _, _, _, _ => none

/-- Embedding of `setContentPieces`: the argument must be an array of strings
(checked before any store access), then a single `hset` replaces the
`contentPieces_json` field. -/
def setContentPieces (st : PostStore) (postId : String) (content : JVal) :
    Except String PostStore :=
  if ¬ content.isStringArray then
    Except.error "Invalid content pieces format: must be an array of strings."
  else
    Except.ok { st with main := hsetAt st.main postId [("contentPieces_json", content)] }

/-- Embedding of `upsert(data, options)`: mandatory mode first, then the
content-pieces shape validation, then the id/existence checks, then the
`hset` of the cleaned fields and the explicit `hdel` of a null `imageLink`. -/
def upsert (fresh : String) (data : PostData) (mode : Option UpsertMode)
    (providedPostId : Option String) (st : PostStore) :
    Except String (Post × PostStore) :=
  match mode with
  | none => Except.error "Operation mode (create or update) must be specified in options."
  | some m =>
    if ¬ data.contentPieces.isStringArray then
      Except.error "Invalid content pieces format: must be an array of strings."
    else
      let idCheck : Except String String :=
        match m with
        | UpsertMode.update =>
          match snorm providedPostId with
          | none => Except.error "Post ID must be provided in options for update mode."
          | some pid =>
            if (aget st.main pid).isSome then Except.ok pid
            else Except.error ("Post with ID " ++ pid ++ " not found for update.")
        | UpsertMode.create =>
          match snorm providedPostId with
          | some pid =>
            if (aget st.main pid).isSome then
              Except.error ("Post with ID " ++ pid ++ " already exists. Cannot create.")
            else Except.ok pid
          | none => Except.ok fresh
      match idCheck with
      | .error msg => Except.error msg
      | .ok effectivePostId =>
        let fields : List (String × JVal) :=
          [("conversationId", JVal.str data.conversationId),
           ("targetPlatform", JVal.str data.targetPlatform),
           ("postType", JVal.str data.postType)]
          ++ (match data.imageLink with
              | some (some s) => [("imageLink", JVal.str s)]
              | _ => [])
          ++ [("contentPieces_json", data.contentPieces)]
        let st1 : PostStore := { st with main := hsetAt st.main effectivePostId fields }
        let st2 : PostStore :=
          if data.imageLink = some none then
            { st1 with main := hdelAt st1.main effectivePostId "imageLink" }
          else st1
        let pieces : List String :=
          match data.contentPieces with
          | JVal.arr elems => (JVal.asStringList elems).getD []
          | _ => []
        Except.ok ({ id := effectivePostId, conversationId := data.conversationId,
                     targetPlatform := data.targetPlatform, postType := data.postType,
                     imageLink := (match data.imageLink with
                                   | some (some s) => some s
                                   | _ => none),
                     contentPieces := pieces }, st2)

end RedisPostRepository

/-! ## Project repository

Embedding of `src/server/data/repositories/redisProjectRepository.ts`
(only the parts the claims exercise: the mode-checked `upsert`). -/

namespace RedisProjectRepository

/-- Creation payload (`ProjectData`). -/
structure ProjectData : Type where
  name : String
  customerId : String
  objective : Option String
  aiContext : Option JVal

/-- State of the keys this repository touches. -/
structure Store : Type where
  main : List (String × List (String × CVal))
  conversations : List (String × List String)
  posts : List (String × List String)

/-- Fields written by `upsert` through `cleanHashData` (null and undefined
dropped; the aiContext object stringified). -/
def upsertMainFields (data : ProjectData) : List (String × CVal) :=
  [("name", CVal.plain data.name), ("customerId", CVal.plain data.customerId)]
  ++ (match data.objective with
      | some s => [("objective", CVal.plain s)]
      | none => [])
  ++ (match data.aiContext with
      | some v => [("aiContext_json", CVal.enc v)]
      | none => [])

/-- Embedding of `upsert(data, options)`: mandatory mode, update requires an
existing main key, create with a provided id requires an absent main key,
then one `hset` writes the cleaned fields. -/
def upsert (fresh : String) (data : ProjectData) (mode : Option UpsertMode)
    (providedProjectId : Option String) (st : Store) :
    Except String (String × Store) :=
  match mode with
  | none => Except.error "Operation mode (create or update) must be specified in options."
  | some m =>
    let idCheck : Except String String :=
      match m with
      | UpsertMode.update =>
        match snorm providedProjectId with
        | none => Except.error "Project ID must be provided in options for update mode."
        | some pid =>
          if (aget st.main pid).isSome then Except.ok pid
          else Except.error ("Project with ID " ++ pid ++ " not found for update.")
      | UpsertMode.create =>
        match snorm providedProjectId with
        | some pid =>
          if (aget st.main pid).isSome then
            Except.error ("Project with ID " ++ pid ++ " already exists. Cannot create.")
          else Except.ok pid
        | none => Except.ok fresh
    match idCheck with
    | .error msg => Except.error msg
    | .ok effectiveProjectId =>
      Except.ok (effectiveProjectId,
        { st with main := hsetAt st.main effectiveProjectId (upsertMainFields data) })

end RedisProjectRepository

/-! ## Concrete fixtures used by claim theorems and witnesses -/

/-- Customer store fixture: customer `c1` named Acme, owned by `alice`, with
the owner permission entry and the owner membership in the sorted-set index
(the state `create` produces). -/
def custStoreSelf : RedisCustomerRepository.Store :=
  { main := [("c1", [("name", CVal.plain "Acme"), ("ownerUserId", CVal.plain "alice"),
                     ("industry", CVal.plain ""), ("aiContext_json", CVal.plain "")])],
    perms := [("c1", [("alice", "owner")])],
    projects := [],
    userCustomers := [("alice", [("c1", 4)])] }

/-- Same customer state for the variant repository (which keeps no sorted-set
index). -/
def custStoreSelfV : RedisCustomerRepositoryVariant.Store :=
  { main := [("c1", [("name", CVal.plain "Acme"), ("ownerUserId", CVal.plain "alice")])],
    perms := [("c1", [("alice", "owner")])],
    projects := [] }

/-- Well-formed serialized message, as `addMessage` writes it. -/
def validMessage : JVal :=
  JVal.obj [("role", JVal.str "user"), ("content", JVal.str "Valid message"),
            ("timestamp", JVal.str "2025-01-01T00:00:00.000Z")]

/-- Corrupt list element used by the repository test suite: a string with an
unterminated JSON object, rejected by `JSON.parse`. -/
def corruptRaw : String := "\x7b \"role\": \"user\", \"content\": \"Invalid JSON"

/-- Conversation store fixture: conversation `v1` whose message list holds
one well-formed entry followed by one corrupt entry. -/
def convStoreCorrupt : RedisConversationRepository.Store :=
  { main := [("v1", [("projectId", "p1"), ("title", "Invalid Message Test")])],
    msgs := [("v1", [MsgEntry.json validMessage, MsgEntry.corrupt corruptRaw])],
    posts := [] }

/-- Message fixture `Msg i` with role alternating like the test data. -/
def msgFix (role content : String) : JVal :=
  JVal.obj [("role", JVal.str role), ("content", JVal.str content)]

/-- Conversation store fixture: conversation `v2` with five well-formed
messages in insertion order. -/
def convStoreFive : RedisConversationRepository.Store :=
  { main := [("v2", [("projectId", "p2"), ("title", "Recent Message Test")])],
    msgs := [("v2", [MsgEntry.json (msgFix "user" "Msg 1"),
                     MsgEntry.json (msgFix "assistant" "Msg 2"),
                     MsgEntry.json (msgFix "user" "Msg 3"),
                     MsgEntry.json (msgFix "assistant" "Msg 4"),
                     MsgEntry.json (msgFix "user" "Msg 5")])],
    posts := [] }

/-- Subscription store fixture: subscription `s1` belonging to user `u1`,
with the matching user-index entry. -/
def subStoreFix : RedisSubscriptionRepository.Store :=
  { subs := [("s1", [("userId", "u1"), ("planType", "pro"), ("status", "active")])],
    userIndex := [("u1", "s1")] }

/-- User store fixture: users `u1` (alice@example.com) and `u2`
(bob@example.com) with their email-index entries. -/
def userStoreFix : RedisUserRepository.Store :=
  { users := [("u1", [("name", some "Alice"), ("email", some "alice@example.com"),
                      ("subscriptionId", none)]),
              ("u2", [("name", some "Bob"), ("email", some "bob@example.com"),
                      ("subscriptionId", none)])],
    emailIndex := [("alice@example.com", "u1"), ("bob@example.com", "u2")] }

/-- Post store fixture: post `p1` with required fields and an existing
content-pieces array. -/
def postStoreFix : RedisPostRepository.PostStore :=
  { main := [("p1", [("conversationId", JVal.str "v1"),
                     ("targetPlatform", JVal.str "twitter"),
                     ("postType", JVal.str "thread"),
                     ("contentPieces_json", JVal.arr [JVal.str "old"])])],
    prompts := [] }

/-- Project store fixture: project `j1` with required fields. -/
def projStoreFix : RedisProjectRepository.Store :=
  { main := [("j1", [("name", CVal.plain "Proj"), ("customerId", CVal.plain "c1")])],
    conversations := [], posts := [] }

-- ===================== DEFINITIONS ABOVE / THEOREMS BELOW =====================

/-! ## Helper lemmas about the store primitives -/

@[simp] theorem aget_nil {α : Type} (k : String) : aget ([] : List (String × α)) k = none := rfl

theorem aget_aset_self {α : Type} (l : List (String × α)) (k : String) (v : α) :
    aget (aset l k v) k = some v := by
  induction l with
  | nil => simp [aget, aset]
  | cons h t ih =>
    obtain ⟨k2, v2⟩ := h
    by_cases hk : k2 = k <;> simp [aget, aset, hk, ih]

theorem aget_aset_ne {α : Type} (l : List (String × α)) (k k2 : String) (v : α)
    (h : k ≠ k2) : aget (aset l k v) k2 = aget l k2 := by
  induction l with
  | nil => simp [aget, aset, h]
  | cons hd t ih =>
    obtain ⟨k3, v3⟩ := hd
    by_cases hk : k3 = k
    · subst hk
      simp [aget, aset, h]
    · simp only [aset, if_neg hk]
      by_cases hk2 : k3 = k2 <;> simp [aget, hk2, ih]

theorem aget_adel_self {α : Type} (l : List (String × α)) (k : String) :
    aget (adel l k) k = none := by
  induction l with
  | nil => simp [adel]
  | cons hd t ih =>
    obtain ⟨k2, v2⟩ := hd
    by_cases hk : k2 = k <;> simp [adel, aget, hk, ih]

theorem aget_adel_ne {α : Type} (l : List (String × α)) (k k2 : String)
    (h : k ≠ k2) : aget (adel l k) k2 = aget l k2 := by
  induction l with
  | nil => simp [adel]
  | cons hd t ih =>
    obtain ⟨k3, v3⟩ := hd
    by_cases hk : k3 = k
    · subst hk
      have h2 : k3 ≠ k2 := h
      simp [adel, aget, h2, ih]
    · simp [adel, aget, hk, ih]

example : lrange ["a", "b", "c", "d", "e"] 0 (-1) = ["a", "b", "c", "d", "e"] := by decide
example : lrange ["a", "b", "c", "d", "e"] (-3) (-1) = ["c", "d", "e"] := by decide
example : lrange ["a", "b", "c"] (-100) (-1) = ["a", "b", "c"] := by decide
example : lrange ["a", "b", "c"] 1 1 = ["b"] := by decide
example : lrange ["a", "b", "c"] 5 (-1) = [] := by decide
example : lrange (([] : List String)) 0 (-1) = [] := by decide

theorem mem_zinsert {x y : String × Int} {l : List (String × Int)}
    (h : y ∈ zinsert x l) : y = x ∨ y ∈ l := by
  induction l with
  | nil =>
    simp [zinsert] at h
    exact Or.inl h
  | cons hd t ih =>
    by_cases hle : zleb x hd
    · simp only [zinsert, if_pos hle, List.mem_cons] at h
      rcases h with h | h | h
      · exact Or.inl h
      · exact Or.inr (by simp [h])
      · exact Or.inr (List.mem_cons_of_mem _ h)
    · simp only [zinsert, if_neg hle, List.mem_cons] at h
      rcases h with h | h
      · exact Or.inr (by simp [h])
      · rcases ih h with h2 | h2
        · exact Or.inl h2
        · exact Or.inr (List.mem_cons_of_mem _ h2)

theorem mem_zrangeAsc {y : String × Int} {l : List (String × Int)}
    (h : y ∈ zrangeAsc l) : y ∈ l := by
  induction l with
  | nil => simp [zrangeAsc] at h
  | cons hd t ih =>
    rcases mem_zinsert h with h2 | h2
    · simp [h2]
    · exact List.mem_cons_of_mem _ (ih h2)

/-! ## Claim C9: key naming scheme -/

/-- C9 counterexample: the key scheme does not reject an empty id.  The
`filter(Boolean)` inside `join` silently drops the empty component, so
`customer("")` produces the bare kind key `"cust"` and
`customerPermissions("")` collides with `customer("permissions")` — a key is
silently produced, no error condition exists. -/
theorem redisKeys_empty_id_counterexample :
    RedisKeys.customer "" "" = "cust"
    ∧ RedisKeys.customerPermissions "" "" = RedisKeys.customer "" "permissions" := by
  exact ⟨rfl, rfl⟩

/-- C9 (amended): the key naming scheme is a pure total function with no
error condition at all: mapping a non-empty id yields the namespaced
separator-joined key deterministically, and mapping an empty id silently
drops the empty component instead of being rejected. -/
theorem redisKeys_join_shape (ns id : String) (h : id ≠ "") :
    RedisKeys.customer ns id = (if ns = "" then "cust:" ++ id else ns ++ ":cust:" ++ id)
    ∧ RedisKeys.customerPermissions ns id =
        (if ns = "" then "cust:" ++ id ++ ":permissions"
         else ns ++ ":cust:" ++ id ++ ":permissions")
    ∧ RedisKeys.customer ns "" = (if ns = "" then "cust" else ns ++ ":cust") := by
  have hx : (":" : String) ++ "cust:" = ":cust:" := by decide
  have hlit : ∀ t : String, (":" : String) ++ ("cust:" ++ t) = ":cust:" ++ t := fun t => by
    rw [← String.append_assoc, hx]
  by_cases hns : ns = "" <;>
    simp [RedisKeys.customer, RedisKeys.customerPermissions, RedisKeys.join,
          RedisKeys.joinSep, hns, h, hlit, String.append_assoc]

/-- C9 witness: the amended statement evaluated at a concrete namespace and
id. -/
theorem redisKeys_join_shape_witness :
    ("abc" : String) ≠ ""
    ∧ (RedisKeys.customer "ns" "abc" = (if ("ns" : String) = "" then "cust:" ++ "abc" else "ns" ++ ":cust:" ++ "abc")
       ∧ RedisKeys.customerPermissions "ns" "abc" =
           (if ("ns" : String) = "" then "cust:" ++ "abc" ++ ":permissions"
            else "ns" ++ ":cust:" ++ "abc" ++ ":permissions")
       ∧ RedisKeys.customer "ns" "" = (if ("ns" : String) = "" then "cust" else "ns" ++ ":cust")) :=
  ⟨by decide, redisKeys_join_shape "ns" "abc" (by decide)⟩

/-! ## Claim C1: ownership transfer -/

/-- C1 failing-input evaluation: in the primary repository, transferring
ownership of customer `c1` (owned by `alice`) to `alice` herself leaves
`ownerUserId = "alice"` but deletes the owner permission entry — the
pipeline issues `hdel(permissions, currentOwner)` unconditionally after the
`hset`, and likewise removes `c1` from her sorted-set index.  The variant
repository guards the deletion with `currentOwnerUserId !== newOwnerUserId`
and keeps the owner entry, which is the behavior the claim states. -/
theorem setOwner_self_transfer_failing_input :
    hgetAt (RedisCustomerRepository.setOwner custStoreSelf "c1" "alice").main "c1" "ownerUserId"
      = some (CVal.plain "alice")
    ∧ aget (RedisCustomerRepository.getPermissions
        (RedisCustomerRepository.setOwner custStoreSelf "c1" "alice") "c1") "alice" = none
    ∧ RedisCustomerRepository.listUserCustomers
        (RedisCustomerRepository.setOwner custStoreSelf "c1" "alice") "alice" = []
    ∧ RedisCustomerRepositoryVariant.getOwnerUserId
        (RedisCustomerRepositoryVariant.setOwner custStoreSelfV "c1" "alice") "c1" = some "alice"
    ∧ RedisCustomerRepositoryVariant.getPermissionForUser
        (RedisCustomerRepositoryVariant.setOwner custStoreSelfV "c1" "alice") "c1" "alice"
      = some "owner" := by
  exact ⟨rfl, rfl, rfl, rfl, rfl⟩

/-! ## Claim C2: owner-removal guard -/

/-- C2 failing-input evaluation: the primary `removePermission` has no owner
guard — removing the permission of `alice`, the stored owner of `c1`,
deletes her owner entry and her sorted-set membership, so the guarded no-op
the claim states does not hold there.  The variant repository implements the
guard: the call returns with the store untouched and
`getPermissionForUser` still answers `"owner"`. -/
theorem removePermission_owner_failing_input :
    aget (RedisCustomerRepository.getPermissions
        (RedisCustomerRepository.removePermission custStoreSelf "c1" "alice") "c1") "alice" = none
    ∧ RedisCustomerRepository.listUserCustomers
        (RedisCustomerRepository.removePermission custStoreSelf "c1" "alice") "alice" = []
    ∧ RedisCustomerRepositoryVariant.removePermission custStoreSelfV "c1" "alice" = custStoreSelfV
    ∧ RedisCustomerRepositoryVariant.getPermissionForUser custStoreSelfV "c1" "alice"
      = some "owner" := by
  exact ⟨rfl, rfl, rfl, rfl⟩

/-! ## Claim C5: malformed message tolerance -/

/-- C5 failing-input evaluation: on a message list holding one well-formed
entry followed by one corrupt entry (the exact fixture of the repository's
own test, which expects the read to return only the valid message), the
primary `getMessages` is `lrange(...).map(JSON.parse)` and propagates the
parse failure to the caller instead of skipping it; the variant
implementation skips the corrupt entry with a logged warning and returns
exactly the well-formed message. -/
theorem getMessages_corrupt_entry_failing_input :
    RedisConversationRepository.getMessages convStoreCorrupt "v1" 0 (-1)
      = Except.error corruptRaw
    ∧ RedisConversationRepositoryVariant.getMessages convStoreCorrupt "v1" 0 (-1)
      = [validMessage] := by
  exact ⟨rfl, rfl⟩

/-! ## Claim C6: recent-message slicing -/

/-- C6 failing-input evaluation: on a five-message conversation (the fixture
of the repository's own test), the primary `getRecentMessages(0)` computes
`lrange(key, -0, -1) = lrange(key, 0, -1)` and returns all five messages,
where the claim (and the sibling test, which expects length 0) demands an
empty sequence; the variant guards `count <= 0` and returns `[]`.  For a
positive count both implementations return the last `min(count, length)`
messages in order, shown here at `count = 3` and `count = 100`. -/
theorem getRecentMessages_zero_count_failing_input :
    RedisConversationRepository.getRecentMessages convStoreFive "v2" 0
      = Except.ok [msgFix "user" "Msg 1", msgFix "assistant" "Msg 2", msgFix "user" "Msg 3",
                   msgFix "assistant" "Msg 4", msgFix "user" "Msg 5"]
    ∧ RedisConversationRepositoryVariant.getRecentMessages convStoreFive "v2" 0 = []
    ∧ RedisConversationRepository.getRecentMessages convStoreFive "v2" 3
      = Except.ok [msgFix "user" "Msg 3", msgFix "assistant" "Msg 4", msgFix "user" "Msg 5"]
    ∧ RedisConversationRepositoryVariant.getRecentMessages convStoreFive "v2" 3
      = [msgFix "user" "Msg 3", msgFix "assistant" "Msg 4", msgFix "user" "Msg 5"]
    ∧ RedisConversationRepositoryVariant.getRecentMessages convStoreFive "v2" 100
      = [msgFix "user" "Msg 1", msgFix "assistant" "Msg 2", msgFix "user" "Msg 3",
         msgFix "assistant" "Msg 4", msgFix "user" "Msg 5"] := by
  exact ⟨rfl, rfl, rfl, rfl, rfl⟩

/-! ## Claim C4: single subscription per user -/

/-- C4: when the `userId → subscriptionId` index already records a
subscription for `data.userId`, `create` raises the conflict error whose
message carries the existing subscription id, without producing any new
store (the error is thrown before the write pipeline is built); when the
user has no recorded subscription (and the generated id is unused), `create`
writes the subscription hash and the user-index entry together in one
pipeline. -/
theorem subscription_create_single_per_user
    (st : RedisSubscriptionRepository.Store) (fresh : String)
    (data : RedisSubscriptionRepository.SubscriptionData) (sid : String) :
    (aget st.userIndex data.userId = some sid → sid ≠ "" →
      RedisSubscriptionRepository.create fresh data st =
        Except.error ("User " ++ data.userId ++ " already has an active subscription (ID: "
          ++ sid ++ ")."))
    ∧ (aget st.userIndex data.userId = none → aget st.subs fresh = none →
        ∃ sub st2,
          RedisSubscriptionRepository.create fresh data st = Except.ok (sub, st2)
          ∧ sub = { id := fresh, userId := data.userId, planType := data.planType,
                    status := data.status }
          ∧ aget st2.subs fresh =
              some [("userId", data.userId), ("planType", data.planType),
                    ("status", data.status)]
          ∧ aget st2.userIndex data.userId = some fresh) := by
  constructor
  · intro h hne
    simp [RedisSubscriptionRepository.create, h, hne]
  · intro h hf
    refine ⟨(RedisSubscriptionRepository.createCommit fresh data st).1,
            (RedisSubscriptionRepository.createCommit fresh data st).2, ?_, ?_, ?_, ?_⟩
    · simp [RedisSubscriptionRepository.create, h]
    · simp [RedisSubscriptionRepository.createCommit]
    · simp [RedisSubscriptionRepository.createCommit, hsetAt, hf, aget_aset_self, aset]
    · simp [RedisSubscriptionRepository.createCommit, aget_aset_self]

/-- C4 witness: both branches of the claim evaluated on the concrete
fixture store (user `u1` already holds subscription `s1`; user `u2` holds
none and the generated id `s2` is unused). -/
theorem subscription_create_single_per_user_witness :
    (aget subStoreFix.userIndex "u1" = some "s1" ∧ ("s1" : String) ≠ ""
     ∧ RedisSubscriptionRepository.create "s2" ⟨"u1", "pro", "active"⟩ subStoreFix =
         Except.error ("User " ++ "u1" ++ " already has an active subscription (ID: "
           ++ "s1" ++ ")."))
    ∧ (aget subStoreFix.userIndex "u2" = none ∧ aget subStoreFix.subs "s2" = none
       ∧ ∃ sub st2,
           RedisSubscriptionRepository.create "s2" ⟨"u2", "pro", "active"⟩ subStoreFix
             = Except.ok (sub, st2)
           ∧ sub = { id := "s2", userId := "u2", planType := "pro", status := "active" }
           ∧ aget st2.subs "s2" =
               some [("userId", "u2"), ("planType", "pro"), ("status", "active")]
           ∧ aget st2.userIndex "u2" = some "s2") :=
  ⟨⟨rfl, by decide,
    (subscription_create_single_per_user subStoreFix "s2" ⟨"u1", "pro", "active"⟩ "s1").1
      rfl (by decide)⟩,
   ⟨rfl, rfl,
    (subscription_create_single_per_user subStoreFix "s2" ⟨"u2", "pro", "active"⟩ "s1").2
      rfl rfl⟩⟩

/-! ## Claim C3: email uniqueness -/

/-- C3: creating a user whose email collides case-insensitively with an
indexed email fails with the conflict error before any write, and updating a
user's email to an email indexed to a different user fails with the conflict
error with the queued pipeline never executed, so the store — including both
email-index entries and the user hash — is unchanged and the original user
remains reachable through `findByEmail` with the original email. -/
theorem user_email_uniqueness
    (st : RedisUserRepository.Store) (fresh userId e2 w : String)
    (data : RedisUserRepository.UserData) (patch : RedisUserRepository.UserPatch)
    (cu : RedisUserRepository.User) :
    ((∃ uid, aget st.emailIndex (lowerStr data.email) = some uid ∧ uid ≠ "") →
      RedisUserRepository.upsert fresh data (some UpsertMode.create) st =
        Except.error ("User with email " ++ data.email ++ " already exists."))
    ∧ (RedisUserRepository.getById st userId = some cu →
       patch.email = some e2 → e2 ≠ "" →
       lowerStr e2 ≠ lowerStr cu.email →
       aget st.emailIndex (lowerStr e2) = some w → w ≠ "" → w ≠ userId →
       aget st.emailIndex (lowerStr cu.email) = some userId → userId ≠ "" →
       RedisUserRepository.update userId patch st =
         Except.error ("Email " ++ e2 ++ " is already in use by another user.")
       ∧ RedisUserRepository.findByEmail st cu.email = some cu) := by
  constructor
  · rintro ⟨uid, h, hne⟩
    simp [RedisUserRepository.upsert, h, struthy, hne]
  · intro h1 h2 he2 h4 h5 h6 h7 h8 h9
    constructor
    · simp [RedisUserRepository.update, h1, h2, snorm, he2, h4, h5, struthy, h6, h7]
    · simp [RedisUserRepository.findByEmail, h8, struthy, h9, h1]

/-- C3 witness: both branches on the concrete two-user fixture store —
creating a user with email `Alice@Example.com` (case-insensitive collision
with `u1`) fails, and updating `u2` to email `ALICE@EXAMPLE.COM` fails while
`u2` stays reachable via its original email. -/
theorem user_email_uniqueness_witness :
    (aget userStoreFix.emailIndex (lowerStr "Alice@Example.com") = some "u1"
     ∧ RedisUserRepository.upsert "u9" ⟨"Alice@Example.com", "Alice2", none⟩
         (some UpsertMode.create) userStoreFix =
         Except.error ("User with email " ++ "Alice@Example.com" ++ " already exists."))
    ∧ (RedisUserRepository.getById userStoreFix "u2"
         = some ⟨"u2", "bob@example.com", "Bob", none⟩
       ∧ RedisUserRepository.update "u2" ⟨some "ALICE@EXAMPLE.COM", none, none⟩ userStoreFix =
           Except.error ("Email " ++ "ALICE@EXAMPLE.COM" ++ " is already in use by another user.")
       ∧ RedisUserRepository.findByEmail userStoreFix "bob@example.com"
           = some ⟨"u2", "bob@example.com", "Bob", none⟩) := by
  have h := user_email_uniqueness userStoreFix "u9" "u2" "ALICE@EXAMPLE.COM" "u1"
    ⟨"Alice@Example.com", "Alice2", none⟩ ⟨some "ALICE@EXAMPLE.COM", none, none⟩
    ⟨"u2", "bob@example.com", "Bob", none⟩
  have h2 := h.2 (by decide) rfl (by decide) (by decide) (by decide) (by decide) (by decide)
    (by decide) (by decide)
  exact ⟨⟨by decide, h.1 ⟨"u1", by decide, by decide⟩⟩, ⟨by decide, h2.1, h2.2⟩⟩

/-! ## Claim C7: upsert mode safety -/

/-- C7: for each mode-checked upsert (Conversation, Post, Project, and the
variant Customer repository), create mode with a caller-supplied id whose
main key exists fails with the already-exists error, update mode with a
target id whose main key does not exist fails with the not-found error, and
a call without a mode fails with the missing-mode error before any store
access; in each failing case the operation returns an error and therefore
produces no new store.  (For the post repository the data is assumed to pass
the content-pieces validation that precedes the id checks.) -/
theorem upsert_mode_checks
    (pid fresh : String) (anyId : Option String)
    (stc : RedisConversationRepository.Store) (dc : RedisConversationRepository.ConversationData)
    (stp : RedisPostRepository.PostStore) (dp : RedisPostRepository.PostData)
    (stj : RedisProjectRepository.Store) (dj : RedisProjectRepository.ProjectData)
    (stv : RedisCustomerRepositoryVariant.Store) (dv : RedisCustomerRepository.CustomerData)
    (hpid : pid ≠ "") :
    (((aget stc.main pid).isSome = true →
        RedisConversationRepository.upsert fresh dc (some UpsertMode.create) (some pid) stc =
          Except.error ("Conversation with ID " ++ pid ++ " already exists. Cannot create."))
     ∧ (aget stc.main pid = none →
        RedisConversationRepository.upsert fresh dc (some UpsertMode.update) (some pid) stc =
          Except.error ("Conversation with ID " ++ pid ++ " not found for update."))
     ∧ RedisConversationRepository.upsert fresh dc none anyId stc =
         Except.error "Operation mode (create or update) must be specified in options.")
    ∧ ((dp.contentPieces.isStringArray = true → (aget stp.main pid).isSome = true →
        RedisPostRepository.upsert fresh dp (some UpsertMode.create) (some pid) stp =
          Except.error ("Post with ID " ++ pid ++ " already exists. Cannot create."))
     ∧ (dp.contentPieces.isStringArray = true → aget stp.main pid = none →
        RedisPostRepository.upsert fresh dp (some UpsertMode.update) (some pid) stp =
          Except.error ("Post with ID " ++ pid ++ " not found for update."))
     ∧ RedisPostRepository.upsert fresh dp none anyId stp =
         Except.error "Operation mode (create or update) must be specified in options.")
    ∧ (((aget stj.main pid).isSome = true →
        RedisProjectRepository.upsert fresh dj (some UpsertMode.create) (some pid) stj =
          Except.error ("Project with ID " ++ pid ++ " already exists. Cannot create."))
     ∧ (aget stj.main pid = none →
        RedisProjectRepository.upsert fresh dj (some UpsertMode.update) (some pid) stj =
          Except.error ("Project with ID " ++ pid ++ " not found for update."))
     ∧ RedisProjectRepository.upsert fresh dj none anyId stj =
         Except.error "Operation mode (create or update) must be specified in options.")
    ∧ (((aget stv.main pid).isSome = true →
        RedisCustomerRepositoryVariant.upsert fresh dv (some UpsertMode.create) (some pid) stv =
          Except.error ("Customer with ID " ++ pid ++ " already exists. Cannot create."))
     ∧ (aget stv.main pid = none →
        RedisCustomerRepositoryVariant.upsert fresh dv (some UpsertMode.update) (some pid) stv =
          Except.error ("Customer with ID " ++ pid ++ " not found for update."))
     ∧ RedisCustomerRepositoryVariant.upsert fresh dv none anyId stv =
         Except.error "Operation mode (create or update) must be specified in options.") := by
  refine ⟨⟨?_, ?_, ?_⟩, ⟨?_, ?_, ?_⟩, ⟨?_, ?_, ?_⟩, ⟨?_, ?_, ?_⟩⟩
  · intro hex
    simp [RedisConversationRepository.upsert, snorm, hpid, hex]
  · intro hmiss
    simp [RedisConversationRepository.upsert, snorm, hpid, hmiss]
  · simp [RedisConversationRepository.upsert]
  · intro hcp hex
    simp [RedisPostRepository.upsert, snorm, hpid, hex, hcp]
  · intro hcp hmiss
    simp [RedisPostRepository.upsert, snorm, hpid, hmiss, hcp]
  · simp [RedisPostRepository.upsert]
  · intro hex
    simp [RedisProjectRepository.upsert, snorm, hpid, hex]
  · intro hmiss
    simp [RedisProjectRepository.upsert, snorm, hpid, hmiss]
  · simp [RedisProjectRepository.upsert]
  · intro hex
    simp [RedisCustomerRepositoryVariant.upsert, snorm, hpid, hex]
  · intro hmiss
    simp [RedisCustomerRepositoryVariant.upsert, snorm, hpid, hmiss]
  · simp [RedisCustomerRepositoryVariant.upsert]

/-- C7 witness: the twelve mode-check conclusions evaluated on the concrete
fixture stores (existing ids `v2`, `p1`, `j1`, `c1`; missing id `n1`). -/
theorem upsert_mode_checks_witness :
    ((aget convStoreFive.main "v2").isSome = true
     ∧ RedisConversationRepository.upsert "f1" ⟨"pP", "T"⟩ (some UpsertMode.create)
         (some "v2") convStoreFive =
         Except.error ("Conversation with ID " ++ "v2" ++ " already exists. Cannot create.")
     ∧ aget convStoreFive.main "n1" = none
     ∧ RedisConversationRepository.upsert "f1" ⟨"pP", "T"⟩ (some UpsertMode.update)
         (some "n1") convStoreFive =
         Except.error ("Conversation with ID " ++ "n1" ++ " not found for update.")
     ∧ RedisConversationRepository.upsert "f1" ⟨"pP", "T"⟩ none none convStoreFive =
         Except.error "Operation mode (create or update) must be specified in options.")
    ∧ ((JVal.arr [JVal.str "a"]).isStringArray = true
     ∧ (aget postStoreFix.main "p1").isSome = true
     ∧ RedisPostRepository.upsert "f1" ⟨"v1", "tw", "th", none, JVal.arr [JVal.str "a"]⟩
         (some UpsertMode.create) (some "p1") postStoreFix =
         Except.error ("Post with ID " ++ "p1" ++ " already exists. Cannot create.")
     ∧ aget postStoreFix.main "n1" = none
     ∧ RedisPostRepository.upsert "f1" ⟨"v1", "tw", "th", none, JVal.arr [JVal.str "a"]⟩
         (some UpsertMode.update) (some "n1") postStoreFix =
         Except.error ("Post with ID " ++ "n1" ++ " not found for update.")
     ∧ RedisPostRepository.upsert "f1" ⟨"v1", "tw", "th", none, JVal.arr [JVal.str "a"]⟩
         none none postStoreFix =
         Except.error "Operation mode (create or update) must be specified in options.")
    ∧ ((aget projStoreFix.main "j1").isSome = true
     ∧ RedisProjectRepository.upsert "f1" ⟨"Proj", "c1", none, none⟩ (some UpsertMode.create)
         (some "j1") projStoreFix =
         Except.error ("Project with ID " ++ "j1" ++ " already exists. Cannot create.")
     ∧ aget projStoreFix.main "n1" = none
     ∧ RedisProjectRepository.upsert "f1" ⟨"Proj", "c1", none, none⟩ (some UpsertMode.update)
         (some "n1") projStoreFix =
         Except.error ("Project with ID " ++ "n1" ++ " not found for update.")
     ∧ RedisProjectRepository.upsert "f1" ⟨"Proj", "c1", none, none⟩ none none projStoreFix =
         Except.error "Operation mode (create or update) must be specified in options.")
    ∧ ((aget custStoreSelfV.main "c1").isSome = true
     ∧ RedisCustomerRepositoryVariant.upsert "f1" ⟨"Acme", "alice", none, none⟩
         (some UpsertMode.create) (some "c1") custStoreSelfV =
         Except.error ("Customer with ID " ++ "c1" ++ " already exists. Cannot create.")
     ∧ aget custStoreSelfV.main "n1" = none
     ∧ RedisCustomerRepositoryVariant.upsert "f1" ⟨"Acme", "alice", none, none⟩
         (some UpsertMode.update) (some "n1") custStoreSelfV =
         Except.error ("Customer with ID " ++ "n1" ++ " not found for update.")
     ∧ RedisCustomerRepositoryVariant.upsert "f1" ⟨"Acme", "alice", none, none⟩
         none none custStoreSelfV =
         Except.error "Operation mode (create or update) must be specified in options.") := by
  have hV := upsert_mode_checks "v2" "f1" none convStoreFive ⟨"pP", "T"⟩
    postStoreFix ⟨"v1", "tw", "th", none, JVal.arr [JVal.str "a"]⟩
    projStoreFix ⟨"Proj", "c1", none, none⟩ custStoreSelfV ⟨"Acme", "alice", none, none⟩
    (by decide)
  have hN := upsert_mode_checks "n1" "f1" none convStoreFive ⟨"pP", "T"⟩
    postStoreFix ⟨"v1", "tw", "th", none, JVal.arr [JVal.str "a"]⟩
    projStoreFix ⟨"Proj", "c1", none, none⟩ custStoreSelfV ⟨"Acme", "alice", none, none⟩
    (by decide)
  have hP := upsert_mode_checks "p1" "f1" none convStoreFive ⟨"pP", "T"⟩
    postStoreFix ⟨"v1", "tw", "th", none, JVal.arr [JVal.str "a"]⟩
    projStoreFix ⟨"Proj", "c1", none, none⟩ custStoreSelfV ⟨"Acme", "alice", none, none⟩
    (by decide)
  have hJ := upsert_mode_checks "j1" "f1" none convStoreFive ⟨"pP", "T"⟩
    postStoreFix ⟨"v1", "tw", "th", none, JVal.arr [JVal.str "a"]⟩
    projStoreFix ⟨"Proj", "c1", none, none⟩ custStoreSelfV ⟨"Acme", "alice", none, none⟩
    (by decide)
  have hC := upsert_mode_checks "c1" "f1" none convStoreFive ⟨"pP", "T"⟩
    postStoreFix ⟨"v1", "tw", "th", none, JVal.arr [JVal.str "a"]⟩
    projStoreFix ⟨"Proj", "c1", none, none⟩ custStoreSelfV ⟨"Acme", "alice", none, none⟩
    (by decide)
  refine ⟨⟨by decide, hV.1.1 (by decide), rfl, hN.1.2.1 rfl, hV.1.2.2⟩,
          ⟨by decide, by decide, hP.2.1.1 (by decide) (by decide), rfl,
           hN.2.1.2.1 (by decide) rfl, hV.2.1.2.2⟩,
          ⟨by decide, hJ.2.2.1.1 (by decide), rfl, hN.2.2.1.2.1 rfl, hV.2.2.1.2.2⟩,
          ⟨by decide, hC.2.2.2.1 (by decide), rfl, hN.2.2.2.2.1 rfl, hV.2.2.2.2.2⟩⟩

/-! ## Claim C8: ordered content preservation -/

/-- Array-of-strings validation accepts an array built from strings. -/
theorem isStringArray_map_str (xs : List String) :
    (JVal.arr (xs.map JVal.str)).isStringArray = true := by
  simp [JVal.isStringArray, List.all_map, JVal.typeofStr, Function.comp]

/-- Extraction retrieves the original strings, in order. -/
theorem asStringList_map_str (xs : List String) :
    JVal.asStringList (xs.map JVal.str) = some xs := by
  induction xs with
  | nil => rfl
  | cons hd t ih => simp [JVal.asStringList, ih]

/-- C8: on an existing post (one `getById` accepts), `setContentPieces` with
a string list `xs` succeeds and a subsequent `getById` returns a record whose
`contentPieces` equal `xs` element-for-element in the same order, with the
other required fields untouched; and `setContentPieces` with an argument
that is not an array of strings fails with the invalid-format error before
any store mutation (the error is raised before the `hset`). -/
theorem post_content_pieces_roundtrip
    (st : RedisPostRepository.PostStore) (pid : String) (xs : List String)
    (r : RedisPostRepository.Post) (v : JVal)
    (h : RedisPostRepository.getById st pid = some r) :
    (∃ st2, RedisPostRepository.setContentPieces st pid (JVal.arr (xs.map JVal.str)) =
        Except.ok st2
      ∧ ∃ r2, RedisPostRepository.getById st2 pid = some r2
           ∧ r2.contentPieces = xs
           ∧ r2.conversationId = r.conversationId
           ∧ r2.targetPlatform = r.targetPlatform
           ∧ r2.postType = r.postType)
    ∧ (v.isStringArray = false →
        RedisPostRepository.setContentPieces st pid v =
          Except.error "Invalid content pieces format: must be an array of strings.") := by
  constructor
  · cases hm : aget st.main pid with
    | none =>
      simp only [RedisPostRepository.getById, hm] at h
      exact Option.noConfusion h
    | some h0 =>
      simp only [RedisPostRepository.getById, hm] at h
      split at h
      next c tp pt cpj hc htp hpt hcpj =>
        split at h
        next hcond =>
          cases h
          refine ⟨{ st with main := hsetAt st.main pid [("contentPieces_json", JVal.arr (xs.map JVal.str))] }, ?_, ?_⟩
          · simp [RedisPostRepository.setContentPieces, isStringArray_map_str]
          · have hne1 : ¬ ("contentPieces_json" : String) = "conversationId" := by decide
            have hne2 : ¬ ("contentPieces_json" : String) = "targetPlatform" := by decide
            have hne3 : ¬ ("contentPieces_json" : String) = "postType" := by decide
            simp [RedisPostRepository.getById, hsetAt, hm, aget_aset_self,
                  aget_aset_ne _ _ _ _ hne1, aget_aset_ne _ _ _ _ hne2,
                  aget_aset_ne _ _ _ _ hne3,
                  hc, htp, hpt, JVal.typeofStr, asStringList_map_str]
        next hcond => exact Option.noConfusion h
      next hfail => exact Option.noConfusion h
  · intro hv
    simp [RedisPostRepository.setContentPieces, hv]

/-- C8 witness: the round trip evaluated on the concrete post fixture with
`xs = ["a", "b", "c"]`, and the invalid-argument rejection evaluated at the
non-array value `42`. -/
theorem post_content_pieces_roundtrip_witness :
    RedisPostRepository.getById postStoreFix "p1"
      = some { id := "p1", conversationId := "v1", targetPlatform := "twitter",
               postType := "thread", imageLink := none, contentPieces := ["old"] }
    ∧ ((∃ st2, RedisPostRepository.setContentPieces postStoreFix "p1"
          (JVal.arr (["a", "b", "c"].map JVal.str)) = Except.ok st2
        ∧ ∃ r2, RedisPostRepository.getById st2 "p1" = some r2
             ∧ r2.contentPieces = ["a", "b", "c"]
             ∧ r2.conversationId = "v1"
             ∧ r2.targetPlatform = "twitter"
             ∧ r2.postType = "thread")
       ∧ ((JVal.num 42).isStringArray = false →
           RedisPostRepository.setContentPieces postStoreFix "p1" (JVal.num 42) =
             Except.error "Invalid content pieces format: must be an array of strings.")) := by
  have hg : RedisPostRepository.getById postStoreFix "p1"
      = some { id := "p1", conversationId := "v1", targetPlatform := "twitter",
               postType := "thread", imageLink := none, contentPieces := ["old"] } := rfl
  exact ⟨hg, post_content_pieces_roundtrip postStoreFix "p1" ["a", "b", "c"] _ (JVal.num 42) hg⟩

/-! ## Claim C10: customer delete cleans the per-user indexes -/

/-- Membership of a pair implies the key resolves to some value. -/
theorem aget_of_mem {α : Type} {l : List (String × α)} {k : String} {v : α}
    (h : (k, v) ∈ l) : ∃ v2, aget l k = some v2 := by
  induction l with
  | nil => cases h
  | cons hd t ih =>
    obtain ⟨k2, v2⟩ := hd
    by_cases hk : k2 = k
    · exact ⟨v2, by simp [aget, hk]⟩
    · rcases List.mem_cons.mp h with h2 | h2
      · cases h2
        exact absurd rfl hk
      · obtain ⟨v3, hv3⟩ := ih h2
        exact ⟨v3, by simp [aget, hk, hv3]⟩

/-- After ZREM of a member at a key, the member is gone from that key. -/
theorem zremAt_self (zs : List (String × List (String × Int))) (uid cid : String) :
    aget ((aget (zremAt zs uid cid) uid).getD []) cid = none := by
  unfold zremAt
  cases hz : aget zs uid with
  | none => simp [hz]
  | some z => simp [aget_aset_self, aget_adel_self]

/-- ZREM at any key never re-adds a member elsewhere. -/
theorem zremAt_pres (zs : List (String × List (String × Int))) (u uid cid : String)
    (h : aget ((aget zs uid).getD []) cid = none) :
    aget ((aget (zremAt zs u cid) uid).getD []) cid = none := by
  by_cases hu : u = uid
  · subst hu
    exact zremAt_self zs u cid
  · unfold zremAt
    cases hz : aget zs u with
    | none => simpa using h
    | some z => simpa [aget_aset_ne _ _ _ _ hu] using h

/-- ZREM at a different key leaves a sorted set untouched. -/
theorem zremAt_other (zs : List (String × List (String × Int))) (u uid cid : String)
    (hne : u ≠ uid) : aget (zremAt zs u cid) uid = aget zs uid := by
  unfold zremAt
  cases hz : aget zs u with
  | none => rfl
  | some z => simp [aget_aset_ne _ _ _ _ hne]

/-- The ZREM pipeline loop of `delete` never re-adds a member. -/
theorem zrem_foldl_pres (uids : List String) (zs : List (String × List (String × Int)))
    (cid uid : String) (h : aget ((aget zs uid).getD []) cid = none) :
    aget ((aget (uids.foldl (fun z u => zremAt z u cid) zs) uid).getD []) cid = none := by
  induction uids generalizing zs with
  | nil => simpa using h
  | cons u rest ih => exact ih _ (zremAt_pres zs u uid cid h)

/-- The ZREM pipeline loop of `delete` removes the customer from the
sorted set of every listed user. -/
theorem zrem_foldl_removes (uids : List String) (zs : List (String × List (String × Int)))
    (cid uid : String) (h : uid ∈ uids) :
    aget ((aget (uids.foldl (fun z u => zremAt z u cid) zs) uid).getD []) cid = none := by
  induction uids generalizing zs with
  | nil => cases h
  | cons u rest ih =>
    rcases List.mem_cons.mp h with h2 | h2
    · subst h2
      exact zrem_foldl_pres rest _ cid uid (zremAt_self zs uid cid)
    · exact ih (zremAt zs u cid) h2

/-- The ZREM pipeline loop of `delete` leaves unlisted users untouched. -/
theorem zrem_foldl_other (uids : List String) (zs : List (String × List (String × Int)))
    (cid uid : String) (h : uid ∉ uids) :
    aget (uids.foldl (fun z u => zremAt z u cid) zs) uid = aget zs uid := by
  induction uids generalizing zs with
  | nil => rfl
  | cons u rest ih =>
    have hu : u ≠ uid := fun he => h (by simp [he])
    have hr : uid ∉ rest := fun hm => h (List.mem_cons_of_mem _ hm)
    rw [List.foldl_cons, ih (zremAt zs u cid) hr, zremAt_other _ _ _ _ hu]

/-- C10: deleting a customer whose main record is absent is a no-op that
raises no error; deleting an existing customer removes its membership from
the sorted set of every user holding a (validated) permission entry, and —
whenever each sorted-set membership of the customer is backed by a
permission entry, as every repository write path guarantees — afterwards
`listUserCustomers(u)` contains no entry for the customer, for any user. -/
theorem customer_delete_cleans_indexes
    (st : RedisCustomerRepository.Store) (cid : String) :
    (aget st.main cid = none → RedisCustomerRepository.delete st cid = st)
    ∧ ((aget st.main cid).isSome = true →
        (∀ uid, uid ∈ akeys (RedisCustomerRepository.getPermissions st cid) →
          aget ((aget (RedisCustomerRepository.delete st cid).userCustomers uid).getD [])
            cid = none)
        ∧ ((∀ uid z s, aget st.userCustomers uid = some z → (cid, s) ∈ z →
              uid ∈ akeys (RedisCustomerRepository.getPermissions st cid)) →
            ∀ uid p, p ∈ RedisCustomerRepository.listUserCustomers
                (RedisCustomerRepository.delete st cid) uid → p.1 ≠ cid)) := by
  constructor
  · intro hm
    simp [RedisCustomerRepository.delete, RedisCustomerRepository.getById, hm]
  · intro hex
    obtain ⟨h0, hm⟩ := Option.isSome_iff_exists.mp hex
    have hd : (RedisCustomerRepository.delete st cid).userCustomers
        = (akeys (RedisCustomerRepository.getPermissions st cid)).foldl
            (fun z uid => zremAt z uid cid) st.userCustomers := by
      simp only [RedisCustomerRepository.delete, RedisCustomerRepository.getById, hm]
    constructor
    · intro uid hmem
      rw [hd]
      exact zrem_foldl_removes _ _ cid uid hmem
    · intro hco uid p hp hpc
      unfold RedisCustomerRepository.listUserCustomers at hp
      obtain ⟨q, hq, hq2⟩ := List.mem_filterMap.mp hp
      obtain ⟨role, hrole, hpq⟩ := Option.map_eq_some'.mp hq2
      have hq1 : q.1 = cid := by
        simpa [hpc] using congrArg Prod.fst hpq
      have hqz : (q.1, q.2) ∈
          (aget (RedisCustomerRepository.delete st cid).userCustomers uid).getD [] := by
        simpa using mem_zrangeAsc hq
      by_cases hmem : uid ∈ akeys (RedisCustomerRepository.getPermissions st cid)
      · have hnone : aget ((aget (RedisCustomerRepository.delete st cid).userCustomers uid).getD []) cid = none := by
          rw [hd]
          exact zrem_foldl_removes _ _ cid uid hmem
        obtain ⟨v2, hv2⟩ := aget_of_mem hqz
        rw [hq1] at hv2
        rw [hv2] at hnone
        cases hnone
      · have hpres : aget (RedisCustomerRepository.delete st cid).userCustomers uid
            = aget st.userCustomers uid := by
          rw [hd]
          exact zrem_foldl_other _ _ cid uid hmem
        rw [hpres] at hqz
        cases hz : aget st.userCustomers uid with
        | none => rw [hz] at hqz; cases hqz
        | some z =>
          rw [hz] at hqz
          have hcz : (cid, q.2) ∈ z := by
            rw [← hq1]
            exact hqz
          exact hmem (hco uid z q.2 hz hcz)

/-- C10 witness: on the concrete fixture store, deleting the missing id `nx`
returns the store unchanged, and deleting `c1` erases it from the owner
sorted set, so `listUserCustomers("alice")` no longer offers `c1`. -/
theorem customer_delete_cleans_indexes_witness :
    (aget custStoreSelf.main "nx" = none
     ∧ RedisCustomerRepository.delete custStoreSelf "nx" = custStoreSelf)
    ∧ ((aget custStoreSelf.main "c1").isSome = true
       ∧ "alice" ∈ akeys (RedisCustomerRepository.getPermissions custStoreSelf "c1")
       ∧ aget ((aget (RedisCustomerRepository.delete custStoreSelf "c1").userCustomers
           "alice").getD []) "c1" = none
       ∧ ("c1", "owner") ∉ RedisCustomerRepository.listUserCustomers
           (RedisCustomerRepository.delete custStoreSelf "c1") "alice") := by
  have hT := customer_delete_cleans_indexes custStoreSelf "c1"
  have hN := customer_delete_cleans_indexes custStoreSelf "nx"
  have hco : ∀ uid z s, aget custStoreSelf.userCustomers uid = some z → ("c1", s) ∈ z →
      uid ∈ akeys (RedisCustomerRepository.getPermissions custStoreSelf "c1") := by
    intro uid z s h1 h2
    by_cases hu : ("alice" : String) = uid
    · subst hu
      decide
    · simp [custStoreSelf, aget, hu] at h1
  refine ⟨⟨rfl, hN.1 rfl⟩, ⟨rfl, by decide, (hT.2 rfl).1 "alice" (by decide), ?_⟩⟩
  intro hmem
  exact absurd rfl ((hT.2 rfl).2 hco "alice" ("c1", "owner") hmem)
